import Mathlib

/-!
Verification of the STT (Seigr Toolset Transmissions) core against its
natural-language specification.  The Python source is shallowly embedded:
byte strings become `List Nat`, Python ints become `Int` (or `Nat` where the
source guarantees non-negativity), fallible code returns `Except`, and
stateful methods become explicit state-passing functions.
-/

namespace STT

/-- A byte is modelled as a natural number (the code only ever produces
values `0`–`255`). -/
abbrev Byte := Nat

/-! ### Big-endian fixed-width integers (`struct.pack`/`unpack` with `!Q`, `!H`). -/

/-- Big-endian fixed-width encoding of the low `8*w` bits of `v`,
as `struct.pack` emits for `!Q` (`w = 8`) and `!H` (`w = 2`). -/
def beBytes : Nat → Nat → List Byte
  | 0, _ => []
  | w + 1, v => beBytes w (v / 256) ++ [v % 256]

/-- Big-endian value of a byte string, as `int.from_bytes(data, 'big')`
and `struct.unpack` read multi-byte integers. -/
def beVal (l : List Byte) : Nat := l.foldl (fun acc b => acc * 256 + b) 0

theorem length_beBytes (w v : Nat) : (beBytes w v).length = w := by
  induction w generalizing v with
  | zero => rfl
  | succ w ih => simp [beBytes, ih]

theorem beVal_foldl (l : List Byte) :
    ∀ init : Nat,
      l.foldl (fun acc b => acc * 256 + b) init = init * 256 ^ l.length + beVal l := by
  induction l with
  | nil => intro init; simp [beVal]
  | cons b l ih =>
    intro init
    simp only [List.foldl_cons, List.length_cons, beVal]
    rw [ih (init * 256 + b), ih (0 * 256 + b)]
    ring

theorem beVal_append (l₁ l₂ : List Byte) :
    beVal (l₁ ++ l₂) = beVal l₁ * 256 ^ l₂.length + beVal l₂ := by
  simp only [beVal, List.foldl_append]
  exact beVal_foldl l₂ _

theorem beVal_beBytes (w v : Nat) (h : v < 256 ^ w) : beVal (beBytes w v) = v := by
  induction w generalizing v with
  | zero =>
    interval_cases v
    rfl
  | succ w ih =>
    have hdiv : v / 256 < 256 ^ w := by
      rw [Nat.div_lt_iff_lt_mul (by norm_num)]
      calc v < 256 ^ (w + 1) := h
        _ = 256 ^ w * 256 := by ring
    simp only [beBytes, beVal_append, ih (v / 256) hdiv]
    simp [beVal]
    omega

/-! ### Varint (LEB128).

Modelled from the spec: the module `utils/varint.py` is not under `src/`.
The spec states the frame length field is a varint, and the repository's
tests (`tests/test_varint.py`) pin the unsigned LEB128 format: 7-bit groups,
least-significant group first, high bit of each byte as continuation flag
(`encode_varint(300) = b'\xac\x02'`, `decode_varint(b'\x80')` raises). -/

/-- Modelled from the spec: one step of LEB128 encoding; `fuel` bounds the
recursion and any `fuel > n` yields the true encoding. -/
def encodeVarintAux : Nat → Nat → List Byte
  | 0, _ => []
  | fuel + 1, n =>
    if n < 128 then [n] else (n % 128 + 128) :: encodeVarintAux fuel (n / 128)

/-- Modelled from the spec: `encode_varint` of the missing `utils/varint.py`. -/
def encode_varint (n : Nat) : List Byte := encodeVarintAux (n + 1) n

/-- Modelled from the spec: LEB128 decoding of a prefix of the buffer,
returning the value and the number of bytes consumed, `none` when the
buffer ends inside a varint. -/
def decodeVarintAux : List Byte → Option (Nat × Nat)
  | [] => none
  | b :: rest =>
    if b < 128 then some (b, 1)
    else
      match decodeVarintAux rest with
      | none => none
      | some (v, sz) => some (b % 128 + 128 * v, sz + 1)

/-- Modelled from the spec: `decode_varint(data, offset)` of the missing
`utils/varint.py`. -/
def decode_varint (data : List Byte) (offset : Nat) : Option (Nat × Nat) :=
  decodeVarintAux (data.drop offset)

theorem encodeVarintAux_eq (n : Nat) :
    ∀ f₁ f₂, n < f₁ → n < f₂ → encodeVarintAux f₁ n = encodeVarintAux f₂ n := by
  induction n using Nat.strong_induction_on with
  | _ n ih =>
    intro f₁ f₂ h₁ h₂
    match f₁, f₂ with
    | g₁ + 1, g₂ + 1 =>
      by_cases hn : n < 128
      · simp [encodeVarintAux, hn]
      · simp only [encodeVarintAux, hn, if_false]
        congr 1
        exact ih (n / 128) (Nat.div_lt_self (by omega) (by norm_num)) g₁ g₂
          (by omega) (by omega)

theorem encode_varint_ge (n : Nat) (hn : ¬ n < 128) :
    encode_varint n = (n % 128 + 128) :: encode_varint (n / 128) := by
  simp only [encode_varint, encodeVarintAux, hn, if_false]
  congr 1
  exact encodeVarintAux_eq (n / 128) n (n / 128 + 1) (by omega) (by omega)

theorem decode_encode_varint (n : Nat) (rest : List Byte) :
    decodeVarintAux (encode_varint n ++ rest) = some (n, (encode_varint n).length) := by
  induction n using Nat.strong_induction_on with
  | _ n ih =>
    by_cases hn : n < 128
    · simp [encode_varint, encodeVarintAux, hn, decodeVarintAux]
    · have hd : n / 128 < n := Nat.div_lt_self (by omega) (by norm_num)
      have hih := ih (n / 128) hd
      rw [encode_varint_ge n hn]
      simp only [List.cons_append, decodeVarintAux, List.append_eq, hih,
        if_neg (show ¬ (n % 128 + 128 < 128) by omega)]
      simp only [List.length_cons, Option.some.injEq, Prod.mk.injEq]
      exact ⟨by omega, trivial⟩

theorem length_encode_varint_le (n : Nat) (h : n < 16384) :
    (encode_varint n).length ≤ 2 := by
  by_cases hn : n < 128
  · simp [encode_varint, encodeVarintAux, hn]
  · rw [encode_varint_ge n hn]
    have hdiv : n / 128 < 128 := by omega
    simp [encode_varint, encodeVarintAux, hdiv]

/-! ### Frame constants.

Modelled from the spec: `utils/constants.py` is not under `src/`; the spec
fixes the magic to the two ASCII bytes `S`,`T`, the maximum frame size to the
safe MTU 1472, and the header field widths (`session_id(8) | sequence(8) |
timestamp(8) | reserved(2)`). -/

/-- Modelled from the spec: `STT_MAGIC = b'ST'`. -/
def STT_MAGIC : List Byte := [83, 84]

/-- Modelled from the spec: default safe-MTU maximum frame size. -/
def STT_MAX_FRAME_SIZE : Nat := 1472

/-- Modelled from the spec: wire widths of the fixed header fields. -/
def STT_SESSION_ID_LENGTH : Nat := 8

def STT_SEQUENCE_LENGTH : Nat := 8

def STT_TIMESTAMP_LENGTH : Nat := 8

def STT_RESERVED_LENGTH : Nat := 2

/-! ### Frame codec (`frame/frame.py`). -/

/-- Error kinds raised as `STTFrameError` (and `struct.error`) by the frame
codec; the Python code carries message strings, the kind is what matters. -/
inductive FrameErr
  | badSessionId
  | negSequence
  | negTimestamp
  | packRange
  | tooLarge
  | shortMagic
  | badMagic
  | badLength
  | shortBuffer
  | tooSmallFrame
deriving DecidableEq

/-- `STTFrame` (frame/frame.py): the dataclass fields.  Python integers are
unbounded and may be negative, hence `Int`. -/
structure STTFrame where
  frame_type : Int
  flags : Int
  session_id : List Byte
  sequence : Int
  timestamp : Int
  payload : List Byte
deriving DecidableEq

/-- `STTFrame.__post_init__` (frame/frame.py lines 42–53): construction-time
validation; the dataclass constructor runs it on every instance. -/
def mkSTTFrame (frame_type flags : Int) (session_id : List Byte)
    (sequence timestamp : Int) (payload : List Byte) : Except FrameErr STTFrame :=
  if session_id.length ≠ STT_SESSION_ID_LENGTH then .error .badSessionId
  else if sequence < 0 then .error .negSequence
  else if timestamp < 0 then .error .negTimestamp
  else .ok ⟨frame_type, flags, session_id, sequence, timestamp, payload⟩

/-- `struct.pack('!B', v)`: one byte, failing outside `0..255`. -/
def packB (v : Int) : Option (List Byte) :=
  if 0 ≤ v ∧ v < 256 then some [v.toNat] else none

/-- `struct.pack('!Q', v)`: eight big-endian bytes, failing outside `0..2^64-1`. -/
def packQ (v : Int) : Option (List Byte) :=
  if 0 ≤ v ∧ v < (2 : Int) ^ 64 then some (beBytes 8 v.toNat) else none

/-- `struct.pack('!8s', s)`: pad with zero bytes or truncate to 8; never fails. -/
def pack8s (s : List Byte) : List Byte :=
  s.take 8 ++ List.replicate (8 - s.length) 0

/-- The header `struct.pack('!BB8sQQH', type, flags, session_id, seq, ts, 0)`
built by `STTFrame.to_bytes`. -/
def packHeader (f : STTFrame) : Option (List Byte) :=
  match packB f.frame_type, packB f.flags, packQ f.sequence, packQ f.timestamp with
  | some t, some fl, some sq, some ts =>
      some (t ++ fl ++ pack8s f.session_id ++ sq ++ ts ++ [0, 0])
  | _, _, _, _ => none

/-- `STTFrame.to_bytes` (frame/frame.py lines 55–90): header, size check
against `STT_MAX_FRAME_SIZE`, length varint, then
`magic ++ length ++ header ++ payload`. -/
def STTFrame.to_bytes (f : STTFrame) : Except FrameErr (List Byte) :=
  match packHeader f with
  | none => .error .packRange
  | some header =>
    let total_length := header.length + f.payload.length
    if total_length > STT_MAX_FRAME_SIZE then .error .tooLarge
    else .ok (STT_MAGIC ++ encode_varint total_length ++ header ++ f.payload)

/-- `STTFrame.from_bytes` (frame/frame.py lines 92–160): verify the magic,
decode the length varint, bounds-check, unpack the fixed header, extract the
payload, and return the frame with the number of bytes consumed. -/
def STTFrame.from_bytes (data : List Byte) : Except FrameErr (STTFrame × Nat) :=
  if data.length < 2 then .error .shortMagic
  else if data.take 2 ≠ STT_MAGIC then .error .badMagic
  else
    match decode_varint data 2 with
    | none => .error .badLength
    | some (total_length, varint_size) =>
      let header_offset := 2 + varint_size
      let frame_end := header_offset + total_length
      if data.length < frame_end then .error .shortBuffer
      else
        let header_size := 1 + 1 + STT_SESSION_ID_LENGTH + STT_SEQUENCE_LENGTH +
          STT_TIMESTAMP_LENGTH + STT_RESERVED_LENGTH
        if total_length < header_size then .error .tooSmallFrame
        else
          let header_data := (data.drop header_offset).take header_size
          let frame_type := header_data.getD 0 0
          let flags := header_data.getD 1 0
          let sid := (header_data.drop 2).take 8
          let seq := beVal ((header_data.drop 10).take 8)
          let ts := beVal ((header_data.drop 18).take 8)
          let payload := (data.drop (header_offset + header_size)).take
            (total_length - header_size)
          match mkSTTFrame (frame_type : Int) (flags : Int) sid (seq : Int) (ts : Int)
              payload with
          | .error e => .error e
          | .ok fr => .ok (fr, frame_end)

theorem length_pack8s (s : List Byte) : (pack8s s).length = 8 := by
  simp only [pack8s, List.length_append, List.length_take, List.length_replicate]
  omega

theorem length_packB (v : Int) (l : List Byte) (h : packB v = some l) :
    l.length = 1 := by
  unfold packB at h
  split at h
  · simp only [Option.some.injEq] at h
    subst h
    rfl
  · cases h

theorem length_packQ (v : Int) (l : List Byte) (h : packQ v = some l) :
    l.length = 8 := by
  unfold packQ at h
  split at h
  · simp only [Option.some.injEq] at h
    subst h
    exact length_beBytes 8 _
  · cases h

theorem length_packHeader (f : STTFrame) (header : List Byte)
    (h : packHeader f = some header) : header.length = 28 := by
  unfold packHeader at h
  cases ht : packB f.frame_type with
  | none => rw [ht] at h; simp at h
  | some t =>
    cases hfl : packB f.flags with
    | none => rw [ht, hfl] at h; simp at h
    | some fl =>
      cases hsq : packQ f.sequence with
      | none => rw [ht, hfl, hsq] at h; simp at h
      | some sq =>
        cases hts : packQ f.timestamp with
        | none => rw [ht, hfl, hsq, hts] at h; simp at h
        | some ts =>
          rw [ht, hfl, hsq, hts] at h
          simp only [Option.some.injEq] at h
          subst h
          simp [List.length_append, length_packB _ _ ht, length_packB _ _ hfl,
            length_packQ _ _ hsq, length_packQ _ _ hts, length_pack8s]

theorem packB_eq (v : Int) (l : List Byte) (h : packB v = some l) :
    0 ≤ v ∧ v < 256 ∧ l = [v.toNat] := by
  unfold packB at h
  split at h
  · simp only [Option.some.injEq] at h
    rename_i hb
    exact ⟨hb.1, hb.2, h.symm⟩
  · cases h

theorem packQ_eq (v : Int) (l : List Byte) (h : packQ v = some l) :
    0 ≤ v ∧ v < (2 : Int) ^ 64 ∧ l = beBytes 8 v.toNat := by
  unfold packQ at h
  split at h
  · simp only [Option.some.injEq] at h
    rename_i hb
    exact ⟨hb.1, hb.2, h.symm⟩
  · cases h

theorem packHeader_eq (f : STTFrame) (header : List Byte)
    (h : packHeader f = some header) :
    0 ≤ f.frame_type ∧ f.frame_type < 256 ∧ 0 ≤ f.flags ∧ f.flags < 256 ∧
    0 ≤ f.sequence ∧ f.sequence < (2 : Int) ^ 64 ∧
    0 ≤ f.timestamp ∧ f.timestamp < (2 : Int) ^ 64 ∧
    header = f.frame_type.toNat :: f.flags.toNat ::
      (pack8s f.session_id ++ (beBytes 8 f.sequence.toNat ++
        (beBytes 8 f.timestamp.toNat ++ [0, 0]))) := by
  unfold packHeader at h
  cases ht : packB f.frame_type with
  | none => rw [ht] at h; simp at h
  | some t =>
    cases hfl : packB f.flags with
    | none => rw [ht, hfl] at h; simp at h
    | some fl =>
      cases hsq : packQ f.sequence with
      | none => rw [ht, hfl, hsq] at h; simp at h
      | some sq =>
        cases hts : packQ f.timestamp with
        | none => rw [ht, hfl, hsq, hts] at h; simp at h
        | some ts =>
          rw [ht, hfl, hsq, hts] at h
          simp only [Option.some.injEq] at h
          obtain ⟨h1, h2, rfl⟩ := packB_eq _ _ ht
          obtain ⟨h3, h4, rfl⟩ := packB_eq _ _ hfl
          obtain ⟨h5, h6, rfl⟩ := packQ_eq _ _ hsq
          obtain ⟨h7, h8, rfl⟩ := packQ_eq _ _ hts
          refine ⟨h1, h2, h3, h4, h5, h6, h7, h8, ?_⟩
          rw [← h]
          simp [List.append_assoc]

theorem to_bytes_eq (f : STTFrame) (b : List Byte) (h : f.to_bytes = .ok b) :
    ∃ header, packHeader f = some header ∧
      header.length + f.payload.length ≤ STT_MAX_FRAME_SIZE ∧
      b = STT_MAGIC ++ encode_varint (header.length + f.payload.length) ++
        header ++ f.payload := by
  unfold STTFrame.to_bytes at h
  cases hph : packHeader f with
  | none => rw [hph] at h; cases h
  | some header =>
    rw [hph] at h
    simp only at h
    split at h
    · cases h
    · rename_i hle
      simp only [Except.ok.injEq] at h
      exact ⟨header, rfl, by omega, h.symm⟩

theorem pack8s_of_length (s : List Byte) (h : s.length = 8) : pack8s s = s := by
  simp [pack8s, h, List.take_of_length_le (le_of_eq h)]

/-- Parsing a frame whose bytes have the exact shape `to_bytes` emits. -/
theorem from_bytes_shape (V S SQ TS P : List Byte) (ft fl : Nat)
    (hS : S.length = 8) (hSQ : SQ.length = 8) (hTS : TS.length = 8)
    (hdv : decodeVarintAux
        (V ++ ((ft :: fl :: (S ++ (SQ ++ (TS ++ [0, 0])))) ++ P)) =
      some (28 + P.length, V.length)) :
    STTFrame.from_bytes
        (STT_MAGIC ++ (V ++ ((ft :: fl :: (S ++ (SQ ++ (TS ++ [0, 0])))) ++ P))) =
      .ok (⟨(ft : Int), (fl : Int), S, (beVal SQ : Int), (beVal TS : Int), P⟩,
        2 + V.length + (28 + P.length)) := by
  set H : List Byte := ft :: fl :: (S ++ (SQ ++ (TS ++ [0, 0]))) with hH
  have hHlen : H.length = 28 := by
    simp [hH, List.length_append, hS, hSQ, hTS]
  set data : List Byte := STT_MAGIC ++ (V ++ (H ++ P)) with hdata
  have hdatalen : data.length = 2 + V.length + (28 + P.length) := by
    simp [hdata, STT_MAGIC, List.length_append, hHlen]
    omega
  have hdrop2 : data.drop 2 = V ++ (H ++ P) := by
    simp [hdata, STT_MAGIC]
  have htake2 : data.take 2 = STT_MAGIC := by
    simp [hdata, STT_MAGIC]
  have hdropHo : data.drop (2 + V.length) = H ++ P := by
    rw [← List.drop_drop, hdrop2, List.drop_left]
  have hheaderdata : (data.drop (2 + V.length)).take 28 = H := by
    rw [hdropHo, ← hHlen, List.take_left]
  have hdropPayload : data.drop (2 + V.length + 28) = P := by
    rw [← List.drop_drop, hdropHo, ← hHlen, List.drop_left]
  have hHdrop2 : H.drop 2 = S ++ (SQ ++ (TS ++ [0, 0])) := by
    simp [hH]
  have hHdrop10 : H.drop 10 = SQ ++ (TS ++ [0, 0]) := by
    rw [show (10 : Nat) = 2 + 8 from rfl, ← List.drop_drop, hHdrop2, ← hS,
      List.drop_left]
  have hHdrop18 : H.drop 18 = TS ++ [0, 0] := by
    rw [show (18 : Nat) = 10 + 8 from rfl, ← List.drop_drop, hHdrop10, ← hSQ,
      List.drop_left]
  have hSid : (H.drop 2).take 8 = S := by rw [hHdrop2, ← hS, List.take_left]
  have hSeq : (H.drop 10).take 8 = SQ := by rw [hHdrop10, ← hSQ, List.take_left]
  have hTs : (H.drop 18).take 8 = TS := by rw [hHdrop18, ← hTS, List.take_left]
  have hg0 : H.getD 0 0 = ft := by simp [hH]
  have hg1 : H.getD 1 0 = fl := by simp [hH]
  have hnotshort : ¬ data.length < 2 := by omega
  have hdv' : decode_varint data 2 = some (28 + P.length, V.length) := by
    rw [decode_varint, hdrop2]
    exact hdv
  have hnotbuf : ¬ data.length < 2 + V.length + (28 + P.length) := by omega
  have hnotsmall : ¬ 28 + P.length < 28 := by omega
  have hseqpos : ¬ ((beVal SQ : Int) < 0) := by omega
  have htspos : ¬ ((beVal TS : Int) < 0) := by omega
  have hPtake : P.take (28 + P.length - 28) = P := by
    simp
  rw [STTFrame.from_bytes]
  rw [if_neg hnotshort, if_neg (by rw [htake2]; simp), hdv']
  simp only [STT_SESSION_ID_LENGTH, STT_SEQUENCE_LENGTH, STT_TIMESTAMP_LENGTH,
    STT_RESERVED_LENGTH]
  rw [if_neg hnotbuf, if_neg (by omega : ¬ 28 + P.length < 1 + 1 + 8 + 8 + 8 + 2)]
  simp only [show (1 : Nat) + 1 + 8 + 8 + 8 + 2 = 28 from rfl]
  rw [hheaderdata, hg0, hg1, hSid, hSeq, hTs, hdropPayload, hPtake]
  rw [mkSTTFrame, if_neg (by simp [hS, STT_SESSION_ID_LENGTH]), if_neg hseqpos,
    if_neg htspos]

/-- `C1`: for every well-formed frame (8-byte session id; fields that the
header packs, which is implied by `to_bytes` succeeding), decoding the
encoding returns the same frame and consumes exactly the encoding's length:
`STTFrame.from_bytes (F.to_bytes()) = (F, len(F.to_bytes()))`. -/
theorem c1_frame_roundtrip (f : STTFrame) (b : List Byte)
    (hsid : f.session_id.length = 8) (h : f.to_bytes = .ok b) :
    STTFrame.from_bytes b = .ok (f, b.length) := by
  obtain ⟨header, hph, hle, hb⟩ := to_bytes_eq f b h
  obtain ⟨h1, h2, h3, h4, h5, h6, h7, h8, hshape⟩ := packHeader_eq f header hph
  have hHlen : header.length = 28 := length_packHeader f header hph
  have hsq64 : f.sequence.toNat < 256 ^ 8 := by
    have : ((256 : Int) ^ 8 = (2 : Int) ^ 64) := by norm_num
    omega
  have hts64 : f.timestamp.toNat < 256 ^ 8 := by omega
  have hbeq : beVal (beBytes 8 f.sequence.toNat) = f.sequence.toNat :=
    beVal_beBytes 8 _ hsq64
  have hbet : beVal (beBytes 8 f.timestamp.toNat) = f.timestamp.toNat :=
    beVal_beBytes 8 _ hts64
  have hps : pack8s f.session_id = f.session_id := pack8s_of_length _ hsid
  have htotal : header.length + f.payload.length = 28 + f.payload.length := by
    omega
  have hb' : b = STT_MAGIC ++ (encode_varint (28 + f.payload.length) ++
      ((f.frame_type.toNat :: f.flags.toNat :: (f.session_id ++
        (beBytes 8 f.sequence.toNat ++ (beBytes 8 f.timestamp.toNat ++ [0, 0])))) ++
        f.payload)) := by
    rw [hb, htotal, hshape, hps]
    simp [List.append_assoc]
  have hdv : decodeVarintAux
      (encode_varint (28 + f.payload.length) ++
        ((f.frame_type.toNat :: f.flags.toNat :: (f.session_id ++
          (beBytes 8 f.sequence.toNat ++ (beBytes 8 f.timestamp.toNat ++ [0, 0])))) ++
          f.payload)) =
      some (28 + f.payload.length, (encode_varint (28 + f.payload.length)).length) :=
    decode_encode_varint _ _
  have hres := from_bytes_shape (encode_varint (28 + f.payload.length))
    f.session_id (beBytes 8 f.sequence.toNat) (beBytes 8 f.timestamp.toNat)
    f.payload f.frame_type.toNat f.flags.toNat hsid (length_beBytes 8 _)
    (length_beBytes 8 _) hdv
  rw [← hb'] at hres
  rw [hres]
  have hft : ((f.frame_type.toNat : Int)) = f.frame_type := Int.toNat_of_nonneg h1
  have hfl : ((f.flags.toNat : Int)) = f.flags := Int.toNat_of_nonneg h3
  have hsq : ((beVal (beBytes 8 f.sequence.toNat) : Int)) = f.sequence := by
    rw [hbeq, Int.toNat_of_nonneg h5]
  have hts : ((beVal (beBytes 8 f.timestamp.toNat) : Int)) = f.timestamp := by
    rw [hbet, Int.toNat_of_nonneg h7]
  have hblen : b.length = 2 + (encode_varint (28 + f.payload.length)).length +
      (28 + f.payload.length) := by
    rw [hb']
    simp [STT_MAGIC, List.length_append, hsid, length_beBytes]
    omega
  rw [hft, hfl, hsq, hts, ← hblen]

/-- `C5` (amended): `to_bytes` fails with the frame-too-large error exactly
when `header(28) + payload` exceeds `STT_MAX_FRAME_SIZE = 1472` (given the
header fields pack), and every byte string it successfully returns has length
at most 1476 — the 1472 cap covers header and payload, but not the two magic
bytes and the length varint. -/
theorem c5_frame_size_bound (f : STTFrame) (header : List Byte)
    (hph : packHeader f = some header) :
    (f.to_bytes = .error .tooLarge ↔ 28 + f.payload.length > 1472) ∧
    (∀ b, f.to_bytes = .ok b → b.length ≤ 1476) := by
  have hHlen : header.length = 28 := length_packHeader f header hph
  constructor
  · unfold STTFrame.to_bytes
    rw [hph]
    simp only [STT_MAX_FRAME_SIZE]
    split
    · rename_i hgt
      exact iff_of_true rfl (by omega)
    · rename_i hle
      exact iff_of_false (by intro hcontra; cases hcontra) (by omega)
  · intro b hb
    obtain ⟨header2, hph2, hle2, hbeq⟩ := to_bytes_eq f b hb
    have he : header2 = header := by
      rw [hph2] at hph
      exact Option.some.inj hph
    subst he
    have hv : (encode_varint (header2.length + f.payload.length)).length ≤ 2 :=
      length_encode_varint_le _ (by simp [STT_MAX_FRAME_SIZE] at hle2; omega)
    rw [hbeq]
    simp only [List.length_append, STT_MAGIC, List.length_cons, List.length_nil]
    simp only [STT_MAX_FRAME_SIZE] at hle2
    omega

/-- The frame with a 1444-byte payload used to refute the 1472-byte bound of
claim C5: its successful encoding is 1476 bytes long. -/
def frame1444 : STTFrame :=
  ⟨1, 0, [1, 2, 3, 4, 5, 6, 7, 8], 0, 0, List.replicate 1444 0⟩

set_option maxRecDepth 40000 in
/-- `C5` (counterexample): the frame with a 1444-byte payload encodes
successfully (header+payload is exactly 1472), yet the returned byte string is
1476 bytes long, exceeding the claimed 1472 cap. -/
theorem c5_counterexample :
    (frame1444.to_bytes.toOption.map List.length) = some 1476 ∧ 1476 > 1472 :=
  ⟨rfl, by omega⟩

/-- `C1` witness: the concrete frame of scenario S1 (type 1, flags 0, session
id `01..08`, sequence 42, timestamp 1700000000000, payload `"hello"`)
round-trips through `to_bytes`/`from_bytes`. -/
def frameS1 : STTFrame :=
  ⟨1, 0, [1, 2, 3, 4, 5, 6, 7, 8], 42, 1700000000000, [104, 101, 108, 108, 111]⟩

def bytesS1 : List Byte :=
  match frameS1.to_bytes with
  | .ok b => b
  | .error _ => []

theorem c1_frame_roundtrip_witness :
    STTFrame.from_bytes bytesS1 = .ok (frameS1, bytesS1.length) :=
  c1_frame_roundtrip frameS1 bytesS1 (by decide) rfl

/-- `C5` witness: instantiation of the amended bound at the S1 frame. -/
theorem c5_frame_size_bound_witness :
    (frameS1.to_bytes = .error .tooLarge ↔ 28 + frameS1.payload.length > 1472) ∧
    (∀ b, frameS1.to_bytes = .ok b → b.length ≤ 1476) :=
  c5_frame_size_bound frameS1
    (1 :: 0 :: (pack8s [1, 2, 3, 4, 5, 6, 7, 8] ++
      (beBytes 8 42 ++ (beBytes 8 1700000000000 ++ [0, 0])))) (by decide)

/-- `C10`: constructing an `STTFrame` succeeds iff the session id is exactly
8 bytes and the sequence and timestamp are non-negative; the frame type,
flags, and payload are never validated. -/
theorem c10_frame_validation (frame_type flags : Int) (session_id : List Byte)
    (sequence timestamp : Int) (payload : List Byte) :
    (mkSTTFrame frame_type flags session_id sequence timestamp payload).isOk = true ↔
      (session_id.length = 8 ∧ 0 ≤ sequence ∧ 0 ≤ timestamp) := by
  unfold mkSTTFrame
  simp only [STT_SESSION_ID_LENGTH]
  by_cases h1 : session_id.length = 8
  · rw [if_neg (by simp [h1])]
    by_cases h2 : sequence < 0
    · rw [if_pos h2]
      simp only [Except.isOk, Except.toBool, Bool.false_eq_true, false_iff]
      omega
    · rw [if_neg h2]
      by_cases h3 : timestamp < 0
      · rw [if_pos h3]
        simp only [Except.isOk, Except.toBool, Bool.false_eq_true, false_iff]
        omega
      · rw [if_neg h3]
        simp only [Except.isOk, Except.toBool, true_iff]
        exact ⟨h1, by omega, by omega⟩
  · rw [if_pos (by simp [h1])]
    simp only [Except.isOk, Except.toBool, Bool.false_eq_true, false_iff]
    intro hcon
    exact h1 hcon.1

/-! ### Handshake engine (`handshake/handshake.py`, class `STTHandshake`).

The STC crypto is an external collaborator; the wrapper's `hash_data`
(a purpose-keyed hash) and `derive_session_key` (key derivation from the
handshake context dictionary) are modelled as opaque deterministic functions.
Two engines built from the same shared seed share the same functions.
`serialize_stt`/`deserialize_stt` (under the missing `utils/`) are inverse
wire codecs; messages are modelled as the structured records they carry. -/

/-- The context dictionary passed to `derive_session_key` by
`process_response`/`verify_proof` (nonces and node ids are hex strings of the
raw bytes; hex is injective and applied identically on both sides, so the raw
bytes are kept). -/
structure KDFContext where
  initiator_nonce : List Byte
  responder_nonce : List Byte
  initiator_node_id : List Byte
  responder_node_id : List Byte
  purpose : String
deriving DecidableEq

/-- The STC wrapper operations the handshake consumes (`STCWrapper.hash_data`
with a purpose-only context, and `STCWrapper.derive_session_key`). -/
structure STCFuncs where
  hashF : List Byte → String → List Byte
  kdfF : KDFContext → List Byte

/-- `STTHandshake` mutable state (handshake/handshake.py lines 37–46). -/
structure STTHandshake where
  node_id : List Byte
  is_initiator : Bool
  hs_session_id : Option (List Byte) := none
  our_nonce : Option (List Byte) := none
  peer_nonce : Option (List Byte) := none
  peer_node_id : Option (List Byte) := none
  session_key : Option (List Byte) := none
  completed : Bool := false
deriving DecidableEq

/-- Errors of the handshake embedding: accessing a not-yet-set field
(`None.hex()` raises in Python). -/
inductive HsErr
  | missingState
deriving DecidableEq

/-- The HELLO record (`create_hello`): node id, 32-byte nonce, timestamp,
commitment. -/
structure HelloMsg where
  hello_node_id : List Byte
  nonce : List Byte
  timestamp : Int
  commitment : List Byte
deriving DecidableEq

/-- The RESPONSE record (`process_hello`): node id, nonce, challenge,
timestamp. -/
structure ResponseMsg where
  resp_node_id : List Byte
  nonce : List Byte
  challenge : List Byte
  timestamp : Int
deriving DecidableEq

/-- The AUTH_PROOF record (`process_response`): session id, proof,
timestamp. -/
structure ProofMsg where
  proof_session_id : List Byte
  proof : List Byte
  timestamp : Int
deriving DecidableEq

/-- `STTHandshake.create_hello` (lines 48–75): pick a fresh nonce (passed in,
Python draws it from `secrets`), commit to `node_id ++ nonce` under purpose
`hello_commitment`, and emit the HELLO record. -/
def STTHandshake.create_hello (W : STCFuncs) (h : STTHandshake)
    (fresh_nonce : List Byte) (now : Int) : STTHandshake × HelloMsg :=
  ({h with our_nonce := some fresh_nonce},
   ⟨h.node_id, fresh_nonce,  now,
    W.hashF (h.node_id ++ fresh_nonce) "hello_commitment"⟩)

/-- `STTHandshake.process_hello` (lines 77–110): store the peer's node id and
nonce, draw a fresh nonce, compute the challenge over
`peer_nonce ++ our_nonce` under purpose `challenge`, and emit the RESPONSE.
The received commitment field is never read. -/
def STTHandshake.process_hello (W : STCFuncs) (h : STTHandshake)
    (msg : HelloMsg) (fresh_nonce : List Byte) (now : Int) :
    Except HsErr (STTHandshake × ResponseMsg) :=
  .ok ({h with peer_node_id := some msg.hello_node_id,
               peer_nonce := some msg.nonce,
               our_nonce := some fresh_nonce},
       ⟨h.node_id, fresh_nonce,
        W.hashF (msg.nonce ++ fresh_nonce) "challenge", now⟩)

/-- `STTHandshake.process_response` (lines 112–160): store the peer info,
derive the session key from the four handshake values under purpose
`session_key`, take the first 8 bytes of the keyed hash under `session_id`
as the session id, and emit the AUTH_PROOF with
`H(session_key ++ challenge, auth_proof)`. -/
def STTHandshake.process_response (W : STCFuncs) (h : STTHandshake)
    (msg : ResponseMsg) (now : Int) : Except HsErr (STTHandshake × ProofMsg) :=
  match h.our_nonce with
  | none => .error .missingState
  | some our_nonce =>
    let key := W.kdfF ⟨our_nonce, msg.nonce, h.node_id, msg.resp_node_id,
      "session_key"⟩
    let sid := (W.hashF key "session_id").take 8
    let auth_proof := W.hashF (key ++ msg.challenge) "auth_proof"
    .ok ({h with peer_node_id := some msg.resp_node_id,
                 peer_nonce := some msg.nonce,
                 session_key := some key,
                 hs_session_id := some sid,
                 completed := true},
         ⟨sid, auth_proof, now⟩)

/-- `STTHandshake.verify_proof` (lines 162–210): derive the session key from
the responder's perspective, recompute session id, challenge and expected
proof, and compare; returns the updated state and the boolean result. -/
def STTHandshake.verify_proof (W : STCFuncs) (h : STTHandshake)
    (msg : ProofMsg) : Except HsErr (STTHandshake × Bool) :=
  match h.peer_nonce, h.our_nonce, h.peer_node_id with
  | some peer_nonce, some our_nonce, some peer_node_id =>
    let key := W.kdfF ⟨peer_nonce, our_nonce, peer_node_id, h.node_id,
      "session_key"⟩
    let sid := (W.hashF key "session_id").take 8
    let h' := {h with session_key := some key, hs_session_id := some sid}
    if sid ≠ msg.proof_session_id then .ok (h', false)
    else
      let challenge := W.hashF (peer_nonce ++ our_nonce) "challenge"
      let expected := W.hashF (key ++ challenge) "auth_proof"
      if expected = msg.proof then .ok ({h' with completed := true}, true)
      else .ok (h', false)
  | _, _, _ => .error .missingState

/-- A freshly constructed `STTHandshake` for a node id. -/
def mkHandshake (node_id : List Byte) (is_initiator : Bool) : STTHandshake :=
  ⟨node_id, is_initiator, none, none, none, none, none, false⟩

/-- Concrete crypto functions for the C2 counterexample: the hash is the
constant `[0]`, so no commitment other than `[0]` can ever match any
recomputation. -/
def wC2 : STCFuncs := ⟨fun _ _ => [0], fun _ => [0]⟩

/-- A HELLO whose commitment `[1]` mismatches every `wC2` hash output. -/
def badHelloC2 : HelloMsg := ⟨[5], [6], 0, [1]⟩

/-- `C2` (counterexample): a HELLO whose commitment does not match the
recomputation `H(node_id ++ nonce, hello_commitment)` is nonetheless processed
successfully by `process_hello` — no rejection, no failure state. -/
theorem c2_counterexample :
    badHelloC2.commitment ≠
      wC2.hashF (badHelloC2.hello_node_id ++ badHelloC2.nonce) "hello_commitment" ∧
    (STTHandshake.process_hello wC2 (mkHandshake [7] false) badHelloC2 [9] 0).isOk
      = true :=
  ⟨by decide, rfl⟩

/-- `C2` (amended): `process_hello` performs no commitment verification: it
succeeds on every HELLO record, stores the peer's node id and nonce, answers
with the challenge `H(peer_nonce ++ our_nonce, challenge)`, and its result is
independent of the commitment field; the engine has no failure transition
here. -/
theorem c2_no_commitment_check (W : STCFuncs) (h : STTHandshake)
    (msg : HelloMsg) (c : List Byte) (fresh_nonce : List Byte) (now : Int) :
    (STTHandshake.process_hello W h msg fresh_nonce now).isOk = true ∧
    STTHandshake.process_hello W h { msg with commitment := c } fresh_nonce now =
      STTHandshake.process_hello W h msg fresh_nonce now ∧
    (STTHandshake.process_hello W h msg fresh_nonce now).toOption.map
        (fun r => r.2.challenge) =
      some (W.hashF (msg.nonce ++ fresh_nonce) "challenge") :=
  ⟨rfl, rfl, rfl⟩

/-- `C3`: when initiator `idI` and responder `idR` share the same crypto
functions (same shared seed) and exchange the four messages faithfully, the
responder accepts the proof and both sides derive byte-for-byte the same
session key, and the same 8-byte session id — the first 8 bytes of
`H(session_key, session_id)`. -/
theorem c3_handshake_key_agreement (W : STCFuncs) (idI idR nI nR : List Byte)
    (t1 t2 t3 : Int) (r1 : STTHandshake) (resp : ResponseMsg)
    (i2 : STTHandshake) (prf : ProofMsg) (r2 : STTHandshake) (ok : Bool)
    (hr1 : STTHandshake.process_hello W (mkHandshake idR false)
      ((STTHandshake.create_hello W (mkHandshake idI true) nI t1).2) nR t2 =
      .ok (r1, resp))
    (hi2 : STTHandshake.process_response W
      ((STTHandshake.create_hello W (mkHandshake idI true) nI t1).1) resp t3 =
      .ok (i2, prf))
    (hr2 : STTHandshake.verify_proof W r1 prf = .ok (r2, ok)) :
    ok = true ∧
    i2.session_key = r2.session_key ∧
    i2.hs_session_id = r2.hs_session_id ∧
    i2.session_key = some (W.kdfF ⟨nI, nR, idI, idR, "session_key"⟩) ∧
    i2.hs_session_id = some ((W.hashF
      (W.kdfF ⟨nI, nR, idI, idR, "session_key"⟩) "session_id").take 8) ∧
    i2.completed = true ∧ r2.completed = true := by
  simp only [STTHandshake.create_hello, STTHandshake.process_hello, mkHandshake,
    Except.ok.injEq, Prod.mk.injEq] at hr1
  obtain ⟨hr1a, hr1b⟩ := hr1
  subst hr1a
  subst hr1b
  simp only [STTHandshake.process_response, STTHandshake.create_hello,
    mkHandshake, Except.ok.injEq, Prod.mk.injEq] at hi2
  obtain ⟨hi2a, hi2b⟩ := hi2
  subst hi2a
  subst hi2b
  simp only [STTHandshake.verify_proof] at hr2
  rw [if_neg (fun hcon => hcon rfl)] at hr2
  first
  | rw [if_pos rfl] at hr2
  | rw [if_pos trivial] at hr2
  injection hr2 with hpair
  injection hpair with hr2a hr2b
  subst hr2a
  subst hr2b
  refine ⟨rfl, rfl, rfl, rfl, rfl, rfl, rfl⟩

/-- Concrete crypto functions for the C3 witness: the hash is the identity on
the data and the KDF concatenates the two nonces. -/
def wC3 : STCFuncs := ⟨fun d _ => d, fun c => c.initiator_nonce ++ c.responder_nonce⟩

/-- Responder state after `process_hello` in the C3 witness run. -/
def r1C3 : STTHandshake := ⟨[3], false, none, some [4], some [2], some [1], none, false⟩

/-- RESPONSE message of the C3 witness run. -/
def respC3 : ResponseMsg := ⟨[3], [4], [2, 4], 0⟩

/-- Initiator state after `process_response` in the C3 witness run. -/
def i2C3 : STTHandshake :=
  ⟨[1], true, some [2, 4], some [2], some [4], some [3], some [2, 4], true⟩

/-- AUTH_PROOF message of the C3 witness run. -/
def prfC3 : ProofMsg := ⟨[2, 4], [2, 4, 2, 4], 0⟩

/-- Responder state after `verify_proof` in the C3 witness run. -/
def r2C3 : STTHandshake :=
  ⟨[3], false, some [2, 4], some [4], some [2], some [1], some [2, 4], true⟩

/-- `C3` witness: the concrete four-message run with ids `[1]`/`[3]` and
nonces `[2]`/`[4]` under `wC3` agrees on key and session id. -/
theorem c3_handshake_key_agreement_witness :
    true = true ∧
    i2C3.session_key = r2C3.session_key ∧
    i2C3.hs_session_id = r2C3.hs_session_id ∧
    i2C3.session_key = some (wC3.kdfF ⟨[2], [4], [1], [3], "session_key"⟩) ∧
    i2C3.hs_session_id = some ((wC3.hashF
      (wC3.kdfF ⟨[2], [4], [1], [3], "session_key"⟩) "session_id").take 8) ∧
    i2C3.completed = true ∧ r2C3.completed = true :=
  c3_handshake_key_agreement wC3 [1] [3] [2] [4] 0 0 0 r1C3 respC3 i2C3 prfC3
    r2C3 true rfl rfl rfl

/-! ### Session (`session/session.py`, class `STTSession`). -/

/-- Modelled from the spec: the session-state constants of the missing
`utils/constants.py`, in the lifecycle order the spec gives
(init, handshake, active, key-rotating, closing, closed); only their
distinctness matters. -/
def STT_SESSION_STATE_INIT : Nat := 0

def STT_SESSION_STATE_HANDSHAKE : Nat := 1

def STT_SESSION_STATE_ACTIVE : Nat := 2

def STT_SESSION_STATE_KEY_ROTATING : Nat := 3

def STT_SESSION_STATE_CLOSING : Nat := 4

def STT_SESSION_STATE_CLOSED : Nat := 5

/-- Errors raised by the session: `STTSessionError` / `STTInvalidStateError`. -/
inductive SessionErr
  | invalidState
  | sessionError
deriving DecidableEq

/-- `STTSession` (session/session.py lines 30–64): the dataclass fields
(the stream manager is owned state irrelevant to key rotation and omitted;
timestamps are milliseconds as `Int`).  There is no key-version field — the
dataclass defines none. -/
structure STTSession where
  sess_id : List Byte
  peer_node_id : List Byte
  local_node_id : List Byte
  state : Nat
  session_key : Option (List Byte)
  send_sequence : Nat
  recv_sequence : Nat
  bytes_transmitted : Nat
  messages_transmitted : Nat
  session_start_time : Int
  last_key_rotation : Int
  send_credit : Nat
  recv_credit : Nat
  capabilities : Nat
  resumption_token : Option (List Byte)
deriving DecidableEq

/-- `STTSession.rotate_keys` (session/session.py lines 140–172): only
callable in the active state; installs the new key, resets the
bytes/messages counters and the rotation clock, and (via the
`finally` block restoring `old_state`) returns the state to active.
No key version exists to increment. -/
def STTSession.rotate_keys (s : STTSession) (new_session_key : List Byte)
    (now : Int) : Except SessionErr STTSession :=
  if s.state ≠ STT_SESSION_STATE_ACTIVE then .error .invalidState
  else .ok { s with session_key := some new_session_key,
                    bytes_transmitted := 0,
                    messages_transmitted := 0,
                    last_key_rotation := now,
                    state := STT_SESSION_STATE_ACTIVE }

/-- `C4`: evaluation of `rotate_keys` on an active session — the new key is
installed, both counters reset, and the state returns to active; the result
record shows the entire effect: no key-version counter exists in
`STTSession`, so nothing is incremented from 0 to 1 (the repository's own
tests assert `session.key_version == 1` after the first rotation). -/
theorem c4_rotate_keys_effect (s : STTSession) (new_key : List Byte) (now : Int)
    (h : s.state = STT_SESSION_STATE_ACTIVE) :
    s.rotate_keys new_key now =
      .ok { s with session_key := some new_key,
                   bytes_transmitted := 0,
                   messages_transmitted := 0,
                   last_key_rotation := now,
                   state := STT_SESSION_STATE_ACTIVE } := by
  rw [STTSession.rotate_keys, if_neg (by simp [h])]

/-- A concrete active session for the C4 witness. -/
def sessionC4 : STTSession :=
  ⟨[1, 2, 3, 4, 5, 6, 7, 8], List.replicate 32 10, List.replicate 32 11,
   STT_SESSION_STATE_ACTIVE, some [9], 3, 3, 100, 3, 0, 0, 0, 0, 0, none⟩

/-- `C4` witness: rotating the concrete active session installs the new key,
zeroes the counters and stays active. -/
theorem c4_rotate_keys_effect_witness :
    sessionC4.rotate_keys [42] 7 =
      .ok { sessionC4 with session_key := some [42],
                           bytes_transmitted := 0,
                           messages_transmitted := 0,
                           last_key_rotation := 7,
                           state := STT_SESSION_STATE_ACTIVE } :=
  c4_rotate_keys_effect sessionC4 [42] 7 rfl

/-! ### Stream (`stream/stream.py`, class `STTStream`). -/

/-- `STTStreamError` raised by stream operations. -/
inductive StreamErr
  | closed
deriving DecidableEq

/-- `STTStream` (stream/stream.py lines 19–57): per-stream state.  Buffers
hold byte chunks; the out-of-order buffer maps sequence numbers to chunks. -/
structure STTStream where
  stream_session_id : List Byte
  stream_id : Nat
  is_active : Bool
  sequence : Nat
  created_at : Int
  last_activity : Int
  send_window : Nat
  receive_window : Nat
  bytes_sent : Nat
  bytes_received : Nat
  messages_sent : Nat
  messages_received : Nat
  receive_buffer : List (List Byte)
  send_buffer : List (List Byte)
  expected_sequence : Nat
  out_of_order_buffer : List (Nat × List Byte)
deriving DecidableEq

/-- A fresh `STTStream` as `__init__` creates it: active, 64 KiB windows,
empty buffers, zero counters. -/
def mkSTTStream (session_id : List Byte) (stream_id : Nat) (now : Int) :
    STTStream :=
  ⟨session_id, stream_id, true, 0, now, now, 65536, 65536, 0, 0, 0, 0,
   [], [], 0, []⟩

/-- `STTStream.send` (stream/stream.py lines 59–77): raises when the stream
is closed; otherwise updates `bytes_sent`, `messages_sent`, `sequence` and
`last_activity` — and nothing else (the code's own comment: 'For now, just
update stats'). -/
def STTStream.send (st : STTStream) (data : List Byte) (now : Int) :
    Except StreamErr STTStream :=
  if st.is_active = false then .error .closed
  else .ok { st with bytes_sent := st.bytes_sent + data.length,
                     messages_sent := st.messages_sent + 1,
                     sequence := st.sequence + 1,
                     last_activity := now }

/-- The fresh stream used by the C6 counterexample. -/
def streamC6 : STTStream := mkSTTStream [1, 2, 3, 4, 5, 6, 7, 8] 1 0

/-- `C6` (counterexample): sending two bytes on a fresh active stream
succeeds, yet the send buffer stays empty and the send window stays at its
initial 65536 — nothing was appended and no credit was charged; and a send
far larger than the whole window also succeeds instead of failing with a
flow-control error. -/
theorem c6_counterexample :
    ((streamC6.send [104, 105] 0).toOption.map
        (fun s => (s.send_buffer, s.send_window))) = some ([], 65536) ∧
    (streamC6.send (List.replicate 70000 120) 0).isOk = true :=
  ⟨rfl, rfl⟩

/-- `C6` (amended): `send` on an active stream returns successfully after
incrementing the send sequence and the bytes/messages-sent statistics; it
does not touch the send buffer or the send-credit window and can only fail
when the stream is closed. -/
theorem c6_send_updates_stats_only (st : STTStream) (data : List Byte)
    (now : Int) (h : st.is_active = true) :
    st.send data now =
      .ok { st with bytes_sent := st.bytes_sent + data.length,
                    messages_sent := st.messages_sent + 1,
                    sequence := st.sequence + 1,
                    last_activity := now } := by
  rw [STTStream.send, if_neg (by simp [h])]

/-- `C6` witness: instantiation of the amended send behaviour on the
concrete fresh stream. -/
theorem c6_send_updates_stats_only_witness :
    streamC6.send [104, 105] 3 =
      .ok { streamC6 with bytes_sent := streamC6.bytes_sent + 2,
                          messages_sent := streamC6.messages_sent + 1,
                          sequence := streamC6.sequence + 1,
                          last_activity := 3 } :=
  c6_send_updates_stats_only streamC6 [104, 105] 3 rfl

/-! ### Streaming decoder (`streaming/decoder.py`, class `StreamDecoder`).

The per-stream STC crypto context is external; its `decrypt_chunk(encrypted,
metadata, chunk_index)` is modelled as an opaque function returning `none` on
decryption failure. -/

/-- `STTStreamingError` kinds raised by `decode_chunk`. -/
inductive StreamingErr
  | tooShort
  | invalidMetadata
  | decryptFailed
deriving DecidableEq

/-- The stream context's `decrypt_chunk(encrypted, metadata, chunk_index)`. -/
abbrev DecryptFun := List Byte → List Byte → Nat → Option (List Byte)

/-- `StreamDecoder` state (streaming/decoder.py lines 16–37): the chunk
buffer is a Python dict keyed by sequence (insertion preserves position,
overwriting replaces in place — only the mapping matters to
`get_ordered_chunks`, which sorts the keys). -/
structure StreamDecoder where
  chunk_buffer : List (Nat × List Byte)
  next_expected_index : Nat
  decoded_chunks : List (List Byte)
deriving DecidableEq

/-- A freshly constructed decoder. -/
def emptyDecoder : StreamDecoder := ⟨[], 0, []⟩

/-- Python dict assignment `buffer[k] = v`: replace in place or append. -/
def insertBuf (k : Nat) (v : List Byte) : List (Nat × List Byte) →
    List (Nat × List Byte)
  | [] => [(k, v)]
  | p :: rest => if p.1 = k then (k, v) :: rest else p :: insertBuf k v rest

/-- Python dict lookup `buffer[k]`. -/
def lookupBuf (k : Nat) : List (Nat × List Byte) → Option (List Byte)
  | [] => none
  | p :: rest => if p.1 = k then some p.2 else lookupBuf k rest

/-- The stateless parse-and-decrypt core of `decode_chunk` (lines 55–85):
`empty_flag(1) | metadata_length(4, big-endian) | metadata | encrypted`;
the chunk index is passed to `decrypt_chunk`; an empty flag of 1 yields the
empty byte string whatever the decryption produced. -/
def decodeSegment (D : DecryptFun) (encoded : List Byte) (idx : Nat) :
    Except StreamingErr (List Byte) :=
  if encoded.length < 5 then .error .tooShort
  else if beVal ((encoded.drop 1).take 4) > encoded.length - 5 then
    .error .invalidMetadata
  else
    match D (encoded.drop (5 + beVal ((encoded.drop 1).take 4)))
        ((encoded.drop 5).take (beVal ((encoded.drop 1).take 4))) idx with
    | none => .error .decryptFailed
    | some decrypted => .ok (if encoded.getD 0 0 = 1 then [] else decrypted)

/-- `StreamDecoder.decode_chunk` (streaming/decoder.py lines 39–99): parse
and decrypt, then either buffer the chunk under its explicit sequence number
or append it to the in-order list. -/
def StreamDecoder.decode_chunk (D : DecryptFun) (dec : StreamDecoder)
    (encoded : List Byte) (sequence : Option Nat) :
    Except StreamingErr (StreamDecoder × List Byte) :=
  match decodeSegment D encoded (sequence.getD dec.next_expected_index) with
  | .error e => .error e
  | .ok chunk =>
    match sequence with
    | some s =>
        .ok ({ dec with chunk_buffer := insertBuf s chunk dec.chunk_buffer },
          chunk)
    | none =>
        .ok ({ dec with
               decoded_chunks := dec.decoded_chunks ++ [chunk],
               next_expected_index := dec.next_expected_index + 1 }, chunk)

/-- `StreamDecoder.get_ordered_chunks` (lines 101–113): the buffered chunks
listed by ascending sequence number. -/
def StreamDecoder.get_ordered_chunks (dec : StreamDecoder) : List (List Byte) :=
  (List.insertionSort (· ≤ ·) (dec.chunk_buffer.map Prod.fst)).filterMap
    (fun k => lookupBuf k dec.chunk_buffer)

/-- Deliver a list of `(sequence, encoded)` items to a decoder, one
`decode_chunk` call per item (a failed call leaves the state unchanged;
none fails in the runs considered here). -/
def runDecoder (D : DecryptFun) (items : List (Nat × List Byte))
    (dec : StreamDecoder) : StreamDecoder :=
  items.foldl
    (fun d it =>
      match StreamDecoder.decode_chunk D d it.2 (some it.1) with
      | .ok (d2, _) => d2
      | .error _ => d) dec

/-- A claim-reading of `decode_chunk` for C8, following the claim's words:
a 1-byte empty flag, then a fixed 16-byte chunk header, then the ciphertext;
header and ciphertext go to `decrypt_chunk`; an empty flag of 1 returns the
empty byte string. -/
def decode_chunk_claimC8 (D : DecryptFun) (dec : StreamDecoder)
    (encoded : List Byte) (sequence : Option Nat) :
    Except StreamingErr (StreamDecoder × List Byte) :=
  if encoded.length < 17 then .error .tooShort
  else
    let empty_flag := encoded.getD 0 0
    let header := (encoded.drop 1).take 16
    let ciphertext := encoded.drop 17
    let idx := sequence.getD dec.next_expected_index
    match D ciphertext header idx with
    | none => .error .decryptFailed
    | some decrypted =>
      let chunk := if empty_flag = 1 then [] else decrypted
      match sequence with
      | some s =>
          .ok ({ dec with chunk_buffer := insertBuf s chunk dec.chunk_buffer },
            chunk)
      | none =>
          .ok ({ dec with
                 decoded_chunks := dec.decoded_chunks ++ [chunk],
                 next_expected_index := dec.next_expected_index + 1 }, chunk)

/-- An always-succeeding decrypt function for the C8 counterexample. -/
def decryptC8 : DecryptFun := fun _ _ _ => some [42]

/-- The 17-byte input of the C8 counterexample: flag 0 then sixteen `0xFF`
bytes.  Under the claim's fixed-16-byte-header reading it parses and
decrypts; the code instead reads bytes 1–4 as a metadata length
(`0xFFFFFFFF`) and rejects the segment. -/
def encodedC8 : List Byte := 0 :: List.replicate 16 255

/-- `C8` (counterexample): on `encodedC8` with an always-succeeding
decrypt function, the code's `decode_chunk` fails with the invalid-metadata
error, while the claim's fixed-16-byte-header reading succeeds — the claimed
parse shape is not the implemented one. -/
theorem c8_counterexample :
    StreamDecoder.decode_chunk decryptC8 emptyDecoder encodedC8 (some 0) =
      .error .invalidMetadata ∧
    (decode_chunk_claimC8 decryptC8 emptyDecoder encodedC8 (some 0)).isOk
      = true :=
  ⟨rfl, rfl⟩

/-- `C8` (amended): for a segment laid out as
`empty_flag(1) | metadata_length(4, big-endian) | metadata | ciphertext`,
`decode_chunk` hands exactly the ciphertext, the metadata and the chunk index
to the context's `decrypt_chunk`, and whenever the empty flag is 1 the
resulting chunk is the empty byte string regardless of the sequence number. -/
theorem c8_decode_parse (D : DecryptFun) (dec : StreamDecoder) (flag : Byte)
    (metadata ciphertext : List Byte) (seq : Option Nat)
    (hm : metadata.length < 2 ^ 32) :
    StreamDecoder.decode_chunk D dec
        (flag :: (beBytes 4 metadata.length ++ (metadata ++ ciphertext))) seq =
      match D ciphertext metadata (seq.getD dec.next_expected_index) with
      | none => .error .decryptFailed
      | some decrypted =>
        let chunk := if flag = 1 then [] else decrypted
        match seq with
        | some s =>
            .ok ({ dec with chunk_buffer := insertBuf s chunk dec.chunk_buffer },
              chunk)
        | none =>
            .ok ({ dec with
                   decoded_chunks := dec.decoded_chunks ++ [chunk],
                   next_expected_index := dec.next_expected_index + 1 }, chunk) := by
  have hlen4 : (beBytes 4 metadata.length).length = 4 := length_beBytes 4 _
  set enc : List Byte :=
    flag :: (beBytes 4 metadata.length ++ (metadata ++ ciphertext)) with henc
  have henclen : enc.length = 5 + metadata.length + ciphertext.length := by
    simp [henc, List.length_append, hlen4]
    omega
  have hdrop1 : enc.drop 1 = beBytes 4 metadata.length ++ (metadata ++ ciphertext) := by
    simp [henc]
  have htake4 : (enc.drop 1).take 4 = beBytes 4 metadata.length := by
    rw [hdrop1, List.take_left' hlen4]
  have hml : beVal ((enc.drop 1).take 4) = metadata.length := by
    rw [htake4]
    exact beVal_beBytes 4 _ (by norm_num; omega)
  have hdrop5 : enc.drop 5 = metadata ++ ciphertext := by
    rw [show (5 : Nat) = 1 + 4 from rfl, ← List.drop_drop, hdrop1,
      List.drop_left' hlen4]
  have hmeta : (enc.drop 5).take metadata.length = metadata := by
    rw [hdrop5, List.take_left' rfl]
  have hct : enc.drop (5 + metadata.length) = ciphertext := by
    rw [← List.drop_drop, hdrop5, List.drop_left' rfl]
  have hflag : enc.getD 0 0 = flag := by simp [henc]
  rw [StreamDecoder.decode_chunk, decodeSegment,
    if_neg (by omega : ¬ enc.length < 5), hml,
    if_neg (by omega : ¬ metadata.length > enc.length - 5), hmeta, hct, hflag]
  cases D ciphertext metadata (seq.getD dec.next_expected_index) with
  | none => rfl
  | some decrypted =>
    cases seq with
    | none => rfl
    | some s => rfl

/-- `C8` witness: a concrete empty-flag segment (flag 1, 2-byte metadata,
1-byte ciphertext) decodes to the empty chunk at sequence 3. -/
theorem c8_decode_parse_witness :
    StreamDecoder.decode_chunk (fun _ _ _ => some [1]) emptyDecoder
        (1 :: (beBytes 4 2 ++ ([7, 8] ++ [9]))) (some 3) =
      match (fun (_ : List Byte) (_ : List Byte) (_ : Nat) => some [1]) [9] [7, 8]
          ((some 3).getD emptyDecoder.next_expected_index) with
      | none => .error .decryptFailed
      | some decrypted =>
        let chunk := if (1 : Byte) = 1 then [] else decrypted
        match some 3 with
        | some s =>
            .ok ({ emptyDecoder with
                   chunk_buffer := insertBuf s chunk emptyDecoder.chunk_buffer },
              chunk)
        | none =>
            .ok ({ emptyDecoder with
                   decoded_chunks := emptyDecoder.decoded_chunks ++ [chunk],
                   next_expected_index := emptyDecoder.next_expected_index + 1 },
              chunk) :=
  c8_decode_parse (fun _ _ _ => some [1]) emptyDecoder 1 [7, 8] [9] (some 3)
    (by norm_num)

theorem insertBuf_of_not_mem (k : Nat) (v : List Byte)
    (l : List (Nat × List Byte)) (h : ∀ p ∈ l, p.1 ≠ k) :
    insertBuf k v l = l ++ [(k, v)] := by
  induction l with
  | nil => rfl
  | cons p rest ih =>
    rw [insertBuf, if_neg (h p (List.mem_cons_self p rest)), ih]
    · rfl
    · intro q hq
      exact h q (List.mem_cons_of_mem p hq)

theorem lookupBuf_map (c : Nat → List Byte) (l : List Nat) (k : Nat)
    (hk : k ∈ l) : lookupBuf k (l.map (fun s => (s, c s))) = some (c k) := by
  induction l with
  | nil => cases hk
  | cons s rest ih =>
    rw [List.map_cons, lookupBuf]
    by_cases hs : s = k
    · subst hs
      simp
    · rw [if_neg hs]
      rcases List.mem_cons.mp hk with h | h
      · exact absurd h.symm hs
      · exact ih h

/-- Accumulation of the chunk buffer over a run of `decode_chunk` calls with
explicit, pairwise-distinct sequence numbers, each of whose segments parses
and decrypts to its chunk. -/
theorem runDecoder_buffer (D : DecryptFun) (n : Nat) (c e : Nat → List Byte)
    (hdec : ∀ s, s < n → decodeSegment D (e s) s = .ok (c s)) :
    ∀ (l : List Nat), l.Nodup → (∀ s ∈ l, s < n) →
      ∀ (dec : StreamDecoder), (∀ p ∈ dec.chunk_buffer, p.1 ∉ l) →
        (runDecoder D (l.map (fun s => (s, e s))) dec).chunk_buffer =
          dec.chunk_buffer ++ l.map (fun s => (s, c s)) := by
  intro l
  induction l with
  | nil =>
    intro _ _ dec _
    simp [runDecoder]
  | cons s rest ih =>
    intro hnd hlt dec hdisj
    have hs : s < n := hlt s (List.mem_cons_self s rest)
    have hstep : StreamDecoder.decode_chunk D dec (e s) (some s) =
        .ok ({ dec with chunk_buffer := insertBuf s (c s) dec.chunk_buffer },
          c s) := by
      rw [StreamDecoder.decode_chunk]
      rw [show (some s).getD dec.next_expected_index = s from rfl]
      rw [hdec s hs]
    have hins : insertBuf s (c s) dec.chunk_buffer =
        dec.chunk_buffer ++ [(s, c s)] := by
      apply insertBuf_of_not_mem
      intro p hp hcon
      exact (hdisj p hp) (hcon ▸ List.mem_cons_self s rest)
    rw [List.map_cons, runDecoder, List.foldl_cons]
    have hred : (match StreamDecoder.decode_chunk D dec (e s) (some s) with
        | .ok (d2, _) => d2
        | .error _ => dec) =
        { dec with chunk_buffer := insertBuf s (c s) dec.chunk_buffer } := by
      rw [hstep]
    rw [hred]
    have hrest := ih (List.Nodup.of_cons hnd)
      (fun t ht => hlt t (List.mem_cons_of_mem s ht))
      { dec with chunk_buffer := insertBuf s (c s) dec.chunk_buffer }
      (by
        intro p hp
        rw [hins] at hp
        rcases List.mem_append.mp hp with h | h
        · intro hcon
          exact (hdisj p h) (List.mem_cons_of_mem s hcon)
        · simp only [List.mem_singleton] at h
          subst h
          exact (List.nodup_cons.mp hnd).1)
    rw [runDecoder] at hrest
    rw [hrest, hins, List.append_assoc]
    rfl

/-- The range-map-getD identity used to recover the original chunk list. -/
theorem map_getD_range (l : List (List Byte)) :
    (List.range l.length).map (fun k => l.getD k []) = l := by
  apply List.ext_getElem
  · simp
  · intro i h1 h2
    simp only [List.getElem_map, List.getElem_range]
    rw [List.getD_eq_getElem?_getD, List.getElem?_eq_getElem h2]
    rfl

/-- `C7`: if segments carrying chunks `0 .. n−1` (each of which parses and
decrypts to its chunk at its own sequence number) are delivered to a fresh
decoder in any order `perm`, one `decode_chunk` call per segment with its
explicit sequence number, then `get_ordered_chunks` returns exactly the
original chunks in sender order. -/
theorem c7_ordered_delivery (D : DecryptFun) (chunks encs : List (List Byte))
    (perm : List Nat)
    (_hlen : encs.length = chunks.length)
    (hperm : perm.Perm (List.range chunks.length))
    (hdec : ∀ s, s < chunks.length →
      decodeSegment D (encs.getD s []) s = .ok (chunks.getD s [])) :
    (runDecoder D (perm.map (fun s => (s, encs.getD s [])))
        emptyDecoder).get_ordered_chunks = chunks := by
  have hnodup : perm.Nodup := hperm.nodup_iff.mpr (List.nodup_range chunks.length)
  have hmem : ∀ s, s ∈ perm ↔ s < chunks.length := by
    intro s
    rw [hperm.mem_iff, List.mem_range]
  have hbuf := runDecoder_buffer D chunks.length (fun s => chunks.getD s [])
    (fun s => encs.getD s []) hdec perm hnodup (fun s hs => (hmem s).mp hs)
    emptyDecoder (by intro p hp; cases hp)
  rw [StreamDecoder.get_ordered_chunks, hbuf]
  simp only [emptyDecoder, List.nil_append]
  have hkeys : ((perm.map fun s => (s, chunks.getD s [])).map Prod.fst) = perm := by
    simp [Function.comp_def]
  rw [hkeys]
  have hsort : List.insertionSort (· ≤ ·) perm = List.range chunks.length := by
    apply List.eq_of_perm_of_sorted
      ((List.perm_insertionSort (· ≤ ·) perm).trans hperm)
      (List.sorted_insertionSort (· ≤ ·) perm)
      (List.sorted_le_range chunks.length)
  rw [hsort]
  have hlookup : ∀ k ∈ List.range chunks.length,
      lookupBuf k (perm.map fun s => (s, chunks.getD s [])) =
        (fun k => some (chunks.getD k [])) k := by
    intro k hk
    exact lookupBuf_map (fun s => chunks.getD s []) perm k
      ((hmem k).mpr (List.mem_range.mp hk))
  rw [List.filterMap_congr hlookup]
  rw [show (fun k => some (chunks.getD k [])) =
    (some ∘ fun k => chunks.getD k []) from rfl]
  rw [List.filterMap_eq_map]
  exact map_getD_range chunks

/-- The four encoded segments of scenario S3 (chunks `"a" "b" "c" "d"`, empty
metadata, ciphertext equal to the chunk) for the C7 witness. -/
def encsC7 : List (List Byte) :=
  [[0, 0, 0, 0, 0, 97], [0, 0, 0, 0, 0, 98], [0, 0, 0, 0, 0, 99],
   [0, 0, 0, 0, 0, 100]]

/-- The identity decrypt function of the C7 witness. -/
def decryptC7 : DecryptFun := fun ct _ _ => some ct

/-- `C7` witness: scenario S3 — segments delivered in order `2,0,3,1` come
back from `get_ordered_chunks` as `["a","b","c","d"]`. -/
theorem c7_ordered_delivery_witness :
    (runDecoder decryptC7 ([2, 0, 3, 1].map (fun s => (s, encsC7.getD s [])))
        emptyDecoder).get_ordered_chunks = [[97], [98], [99], [100]] :=
  c7_ordered_delivery decryptC7 [[97], [98], [99], [100]] encsC7 [2, 0, 3, 1]
    (by decide) (by decide)
    (by
      intro s hs
      have hs4 : s < 4 := by simpa using hs
      interval_cases s <;> rfl)

/-! ### Kademlia routing table (`dht/routing_table.py`). -/

/-- `DHTContact` (dht/routing_table.py lines 16–31): equality of contacts is
by node id only in Python; here the full record is kept and node-id equality
is used explicitly where the code compares node ids. -/
structure DHTContact where
  node_id : List Byte
  host : String
  port : Nat
  last_seen : Int
deriving DecidableEq

/-- `KBucket` (lines 33–54): replication parameter `k` and capacity
`max_size`.  `RoutingTable` constructs buckets as `KBucket(k=k)`, which
leaves `max_size` at its default 20 whatever `k` is. -/
structure KBucket where
  k : Nat
  max_size : Nat
  contacts : List DHTContact
deriving DecidableEq

/-- `KBucket(k=k)` as the routing table builds buckets: `max_size` stays 20. -/
def mkKBucket (k : Nat) : KBucket := ⟨k, 20, []⟩

/-- `KBucket.add_contact` (lines 56–83): an existing contact (matched by node
id) is popped and re-appended at the most-recent end; a new contact is
appended when the bucket is below `max_size` and rejected otherwise. -/
def KBucket.add_contact (b : KBucket) (c : DHTContact) : KBucket × Bool :=
  if b.contacts.any (fun x => x.node_id == c.node_id) then
    ({ b with contacts :=
        b.contacts.eraseP (fun x => x.node_id == c.node_id) ++ [c] }, true)
  else if b.contacts.length < b.max_size then
    ({ b with contacts := b.contacts ++ [c] }, true)
  else (b, false)

/-- Byte-wise XOR of two node ids (`bytes(a ^ b for a, b in zip(...))`). -/
def xorBytes (a b : List Byte) : List Byte :=
  List.zipWith (fun x y => x ^^^ y) a b

/-- Python `int.bit_length`, with fuel (`fuel > n` gives the true value). -/
def bitLenAux : Nat → Nat → Nat
  | 0, _ => 0
  | fuel + 1, n => if n = 0 then 0 else bitLenAux fuel (n / 2) + 1

/-- Python `int.bit_length`. -/
def bit_length (n : Nat) : Nat := bitLenAux (n + 1) n

/-- `RoutingTable._bucket_index` (lines 133–153): 0 for distance zero, else
`distance.bit_length() - 1`. -/
def bucket_index (self_id other : List Byte) : Nat :=
  if beVal (xorBytes self_id other) = 0 then 0
  else bit_length (beVal (xorBytes self_id other)) - 1

/-- `RoutingTable` (lines 107–131): 256 buckets built as `KBucket(k=k)`. -/
structure RoutingTable where
  node_id : List Byte
  k : Nat
  buckets : List KBucket
deriving DecidableEq

/-- `RoutingTable.__init__`. -/
def mkRoutingTable (node_id : List Byte) (k : Nat) : RoutingTable :=
  ⟨node_id, k, List.replicate 256 (mkKBucket k)⟩

/-- `self.buckets[i]` (the index is below 256 for 32-byte node ids). -/
def bucketAt (T : RoutingTable) (i : Nat) : KBucket :=
  T.buckets.getD i (mkKBucket T.k)

/-- `RoutingTable.add_contact` (lines 155–170): refuse the own id, else add
to the bucket at the XOR-distance index. -/
def RoutingTable.add_contact (T : RoutingTable) (c : DHTContact) :
    RoutingTable × Bool :=
  if c.node_id == T.node_id then (T, false)
  else
    ({ T with
       buckets := T.buckets.set (bucket_index T.node_id c.node_id)
         ((bucketAt T (bucket_index T.node_id c.node_id)).add_contact c).1 },
     ((bucketAt T (bucket_index T.node_id c.node_id)).add_contact c).2)

/-- A sequence of `add_contact` calls. -/
def addAll (T : RoutingTable) : List DHTContact → RoutingTable
  | [] => T
  | c :: rest => addAll (T.add_contact c).1 rest

/-- The last-seen ordering of contacts within a bucket. -/
def lastSeenLE (a b : DHTContact) : Prop := a.last_seen ≤ b.last_seen

theorem add_contact_existing (b : KBucket) (c : DHTContact)
    (h : (b.contacts.any fun x => x.node_id == c.node_id) = true) :
    (b.add_contact c).1.contacts =
      b.contacts.eraseP (fun x => x.node_id == c.node_id) ++ [c] ∧
    (b.add_contact c).1.contacts.length = b.contacts.length ∧
    (b.add_contact c).2 = true := by
  rw [KBucket.add_contact, if_pos h]
  refine ⟨rfl, ?_, rfl⟩
  obtain ⟨x, hx, _⟩ := List.any_eq_true.mp h
  have hpos : 0 < b.contacts.length :=
    List.length_pos.mpr (fun hnil => by rw [hnil] at hx; cases hx)
  simp only [List.length_append, List.length_eraseP, h, if_true,
    List.length_cons, List.length_nil]
  omega

theorem add_contact_full (b : KBucket) (c : DHTContact)
    (h1 : (b.contacts.any fun x => x.node_id == c.node_id) = false)
    (h2 : b.max_size ≤ b.contacts.length) :
    b.add_contact c = (b, false) := by
  rw [KBucket.add_contact, if_neg (by simp [h1]), if_neg (by omega)]

theorem add_contact_max_size (b : KBucket) (c : DHTContact) :
    (b.add_contact c).1.max_size = b.max_size := by
  rw [KBucket.add_contact]
  split
  · rfl
  · split
    · rfl
    · rfl

theorem add_contact_length (b : KBucket) (c : DHTContact)
    (h : b.contacts.length ≤ b.max_size) :
    (b.add_contact c).1.contacts.length ≤ b.max_size := by
  by_cases h1 : (b.contacts.any fun x => x.node_id == c.node_id) = true
  · rw [(add_contact_existing b c h1).2.1]
    exact h
  · rw [KBucket.add_contact, if_neg h1]
    by_cases h2 : b.contacts.length < b.max_size
    · rw [if_pos h2]
      simp only [List.length_append, List.length_cons, List.length_nil]
      omega
    · rw [if_neg h2]
      exact h

theorem mem_add_contact (b : KBucket) (c x : DHTContact)
    (hx : x ∈ (b.add_contact c).1.contacts) : x ∈ b.contacts ∨ x = c := by
  rw [KBucket.add_contact] at hx
  split at hx
  · simp only [List.mem_append, List.mem_singleton] at hx
    rcases hx with h | h
    · exact Or.inl ((List.eraseP_sublist b.contacts).subset h)
    · exact Or.inr h
  · split at hx
    · simp only [List.mem_append, List.mem_singleton] at hx
      rcases hx with h | h
      · exact Or.inl h
      · exact Or.inr h
    · exact Or.inl hx

theorem sorted_add_contact (b : KBucket) (c : DHTContact)
    (hs : List.Pairwise lastSeenLE b.contacts)
    (hb : ∀ x ∈ b.contacts, x.last_seen ≤ c.last_seen) :
    List.Pairwise lastSeenLE (b.add_contact c).1.contacts := by
  rw [KBucket.add_contact]
  split
  · apply List.pairwise_append.mpr
    refine ⟨List.Pairwise.sublist (List.eraseP_sublist b.contacts) hs,
      List.pairwise_singleton _ _, ?_⟩
    intro x hx y hy
    simp only [List.mem_singleton] at hy
    subst hy
    exact hb x ((List.eraseP_sublist b.contacts).subset hx)
  · split
    · apply List.pairwise_append.mpr
      refine ⟨hs, List.pairwise_singleton _ _, ?_⟩
      intro x hx y hy
      simp only [List.mem_singleton] at hy
      subst hy
      exact hb x hx
    · exact hs

theorem getD_set_self {α} (l : List α) (i : Nat) (x d : α) (h : i < l.length) :
    (l.set i x).getD i d = x := by
  rw [List.getD_eq_getElem?_getD, List.getElem?_set_self h]
  rfl

theorem getD_set_ne {α} (l : List α) (i j : Nat) (x d : α) (h : i ≠ j) :
    (l.set i x).getD j d = l.getD j d := by
  rw [List.getD_eq_getElem?_getD, List.getD_eq_getElem?_getD,
    List.getElem?_set_ne h]

theorem bucketAt_mem (T : RoutingTable) (i : Nat) (h : i < T.buckets.length) :
    bucketAt T i ∈ T.buckets := by
  rw [bucketAt, List.getD_eq_getElem?_getD, List.getElem?_eq_getElem h]
  exact List.getElem_mem h

theorem bucketAt_props (T : RoutingTable)
    (h3 : ∀ b ∈ T.buckets, b.max_size = 20 ∧ b.contacts.length ≤ 20) (i : Nat) :
    (bucketAt T i).max_size = 20 ∧ (bucketAt T i).contacts.length ≤ 20 := by
  by_cases h : i < T.buckets.length
  · exact h3 _ (bucketAt_mem T i h)
  · rw [bucketAt, List.getD_eq_getElem?_getD, List.getElem?_eq_none (by omega)]
    exact ⟨rfl, by simp [mkKBucket]⟩

theorem add_contact_step (nid : List Byte) (T : RoutingTable) (c : DHTContact)
    (h1 : T.node_id = nid) (h2 : T.buckets.length = 256)
    (h3 : ∀ b ∈ T.buckets, b.max_size = 20 ∧ b.contacts.length ≤ 20)
    (h4 : ∀ i, i < 256 → ∀ x ∈ (bucketAt T i).contacts,
      bucket_index nid x.node_id = i) :
    (T.add_contact c).1.node_id = nid ∧
    (T.add_contact c).1.buckets.length = 256 ∧
    (∀ b ∈ (T.add_contact c).1.buckets,
      b.max_size = 20 ∧ b.contacts.length ≤ 20) ∧
    (∀ i, i < 256 → ∀ x ∈ (bucketAt (T.add_contact c).1 i).contacts,
      bucket_index nid x.node_id = i) := by
  rw [RoutingTable.add_contact]
  by_cases hself : (c.node_id == T.node_id) = true
  · rw [if_pos hself]
    exact ⟨h1, h2, h3, h4⟩
  · rw [if_neg hself]
    refine ⟨h1, ?_, ?_, ?_⟩
    · simpa [List.length_set] using h2
    · intro b hb
      rcases List.mem_or_eq_of_mem_set hb with hmem | heq
      · exact h3 b hmem
      · subst heq
        have hprops := bucketAt_props T h3 (bucket_index T.node_id c.node_id)
        refine ⟨?_, ?_⟩
        · rw [add_contact_max_size]
          exact hprops.1
        · have hlen := add_contact_length (bucketAt T (bucket_index T.node_id c.node_id)) c
            (by omega)
          omega
    · intro j hj x hx
      rw [bucketAt] at hx
      by_cases hij : bucket_index T.node_id c.node_id = j
      · subst hij
        rw [getD_set_self _ _ _ _ (by omega)] at hx
        rcases mem_add_contact _ _ _ hx with hmem | heq
        · exact h4 _ hj x hmem
        · subst heq
          rw [h1]
      · rw [getD_set_ne _ _ _ _ _ hij] at hx
        exact h4 j hj x hx

theorem addAll_inv (nid : List Byte) (adds : List DHTContact) :
    ∀ T : RoutingTable, T.node_id = nid → T.buckets.length = 256 →
      (∀ b ∈ T.buckets, b.max_size = 20 ∧ b.contacts.length ≤ 20) →
      (∀ i, i < 256 → ∀ x ∈ (bucketAt T i).contacts,
        bucket_index nid x.node_id = i) →
      (addAll T adds).node_id = nid ∧
      (addAll T adds).buckets.length = 256 ∧
      (∀ b ∈ (addAll T adds).buckets,
        b.max_size = 20 ∧ b.contacts.length ≤ 20) ∧
      (∀ i, i < 256 → ∀ x ∈ (bucketAt (addAll T adds) i).contacts,
        bucket_index nid x.node_id = i) := by
  induction adds with
  | nil =>
    intro T h1 h2 h3 h4
    exact ⟨h1, h2, h3, h4⟩
  | cons c rest ih =>
    intro T h1 h2 h3 h4
    have hstep := add_contact_step nid T c h1 h2 h3 h4
    exact ih (T.add_contact c).1 hstep.1 hstep.2.1 hstep.2.2.1 hstep.2.2.2

theorem bucketAt_sorted_aux (T : RoutingTable) (adds : List DHTContact)
    (h : ∀ b ∈ T.buckets, List.Pairwise lastSeenLE b.contacts ∧
      ∀ x ∈ b.contacts, ∀ a ∈ adds, x.last_seen ≤ a.last_seen) (i : Nat) :
    List.Pairwise lastSeenLE (bucketAt T i).contacts ∧
    ∀ x ∈ (bucketAt T i).contacts, ∀ a ∈ adds, x.last_seen ≤ a.last_seen := by
  by_cases hlt : i < T.buckets.length
  · exact h _ (bucketAt_mem T i hlt)
  · rw [bucketAt, List.getD_eq_getElem?_getD, List.getElem?_eq_none (by omega)]
    exact ⟨List.Pairwise.nil, by intro x hx; cases hx⟩

theorem addAll_sorted (adds : List DHTContact) :
    ∀ T : RoutingTable,
      List.Pairwise lastSeenLE adds →
      (∀ b ∈ T.buckets, List.Pairwise lastSeenLE b.contacts ∧
        ∀ x ∈ b.contacts, ∀ a ∈ adds, x.last_seen ≤ a.last_seen) →
      ∀ b ∈ (addAll T adds).buckets, List.Pairwise lastSeenLE b.contacts := by
  induction adds with
  | nil =>
    intro T _ h b hb
    exact (h b hb).1
  | cons c rest ih =>
    intro T hp h
    apply ih (T.add_contact c).1 (List.Pairwise.of_cons hp)
    intro b hb
    rw [RoutingTable.add_contact] at hb
    by_cases hself : (c.node_id == T.node_id) = true
    · rw [if_pos hself] at hb
      exact ⟨(h b hb).1,
        fun x hx a ha => (h b hb).2 x hx a (List.mem_cons_of_mem c ha)⟩
    · rw [if_neg hself] at hb
      rcases List.mem_or_eq_of_mem_set hb with hmem | heq
      · exact ⟨(h b hmem).1,
          fun x hx a ha => (h b hmem).2 x hx a (List.mem_cons_of_mem c ha)⟩
      · subst heq
        have hbkt := bucketAt_sorted_aux T (c :: rest) h
          (bucket_index T.node_id c.node_id)
        constructor
        · apply sorted_add_contact _ _ hbkt.1
          intro x hx
          exact hbkt.2 x hx c (List.mem_cons_self c rest)
        · intro x hx a ha
          rcases mem_add_contact _ _ _ hx with hmem2 | heq2
          · exact hbkt.2 x hmem2 a (List.mem_cons_of_mem c ha)
          · subst heq2
            exact (List.pairwise_cons.mp hp).1 a ha

/-- The C9 claim about the routing table built with the default `k = 20`
(the spec's `k`): every stored contact sits in the bucket named by
`bucket_index`, every bucket holds at most 20 contacts, buckets are kept in
last-seen order whenever contacts arrive with nondecreasing `last_seen`,
re-adding an existing contact moves it to the most-recent end without
growing the bucket, and adding a new contact to a full bucket is rejected
leaving the bucket unchanged. -/
def RoutingClaimC9 (nid : List Byte) (adds : List DHTContact) : Prop :=
  (∀ i, i < 256 →
    ∀ x ∈ (bucketAt (addAll (mkRoutingTable nid 20) adds) i).contacts,
      bucket_index nid x.node_id = i) ∧
  (∀ i, i < 256 →
    (bucketAt (addAll (mkRoutingTable nid 20) adds) i).contacts.length ≤ 20) ∧
  (List.Pairwise lastSeenLE adds → ∀ i, i < 256 →
    List.Pairwise lastSeenLE
      (bucketAt (addAll (mkRoutingTable nid 20) adds) i).contacts) ∧
  (∀ (b : KBucket) (c : DHTContact),
    (b.contacts.any fun x => x.node_id == c.node_id) = true →
      (b.add_contact c).1.contacts =
        b.contacts.eraseP (fun x => x.node_id == c.node_id) ++ [c] ∧
      (b.add_contact c).1.contacts.length = b.contacts.length ∧
      (b.add_contact c).2 = true) ∧
  (∀ (b : KBucket) (c : DHTContact),
    (b.contacts.any fun x => x.node_id == c.node_id) = false →
    b.max_size ≤ b.contacts.length → b.add_contact c = (b, false))

/-- `C9`: the routing-table invariants listed in `RoutingClaimC9` hold after
any sequence of `add_contact` calls from the fresh table. -/
theorem c9_routing_invariants (nid : List Byte) (adds : List DHTContact) :
    RoutingClaimC9 nid adds := by
  have hinit_contacts : ∀ i, (bucketAt (mkRoutingTable nid 20) i).contacts = [] := by
    intro i
    rw [bucketAt, List.getD_eq_getElem?_getD]
    show ((List.replicate 256 (mkKBucket 20))[i]?.getD (mkKBucket 20)).contacts = []
    rw [List.getElem?_replicate]
    split
    · rfl
    · rfl
  have hinit1 : (mkRoutingTable nid 20).node_id = nid := rfl
  have hinit2 : (mkRoutingTable nid 20).buckets.length = 256 := by
    rw [show (mkRoutingTable nid 20).buckets = List.replicate 256 (mkKBucket 20)
      from rfl, List.length_replicate]
  have hinit3 : ∀ b ∈ (mkRoutingTable nid 20).buckets,
      b.max_size = 20 ∧ b.contacts.length ≤ 20 := by
    intro b hb
    have := List.eq_of_mem_replicate hb
    subst this
    exact ⟨rfl, by simp [mkKBucket]⟩
  have hinit4 : ∀ i, i < 256 →
      ∀ x ∈ (bucketAt (mkRoutingTable nid 20) i).contacts,
        bucket_index nid x.node_id = i := by
    intro i _ x hx
    rw [hinit_contacts i] at hx
    cases hx
  have hA := addAll_inv nid adds _ hinit1 hinit2 hinit3 hinit4
  refine ⟨hA.2.2.2, ?_, ?_, add_contact_existing, add_contact_full⟩
  · intro i hi
    exact (bucketAt_props _ hA.2.2.1 i).2
  · intro hp i hi
    have hB := addAll_sorted adds (mkRoutingTable nid 20) hp
      (by
        intro b hb
        have := List.eq_of_mem_replicate hb
        subst this
        exact ⟨List.Pairwise.nil, by intro x hx; cases hx⟩)
    by_cases hlt : i < (addAll (mkRoutingTable nid 20) adds).buckets.length
    · exact hB _ (bucketAt_mem _ i hlt)
    · rw [bucketAt, List.getD_eq_getElem?_getD, List.getElem?_eq_none (by omega)]
      exact List.Pairwise.nil

/-- The local node id of the C9 witness: 32 zero bytes. -/
def nidW : List Byte := List.replicate 32 0

/-- First witness contact (XOR distance 1, bucket 0). -/
def contactW1 : DHTContact := ⟨List.replicate 31 0 ++ [1], "a", 1, 0⟩

/-- Second witness contact (XOR distance 2, bucket 1). -/
def contactW2 : DHTContact := ⟨List.replicate 31 0 ++ [2], "b", 2, 1⟩

/-- `C9` witness: the invariants instantiated on a concrete table with two
adds, and the bucket-1 size bound extracted at a concrete index. -/
theorem c9_routing_invariants_witness :
    RoutingClaimC9 nidW [contactW1, contactW2] ∧
    (bucketAt (addAll (mkRoutingTable nidW 20) [contactW1, contactW2])
      1).contacts.length ≤ 20 :=
  ⟨c9_routing_invariants nidW [contactW1, contactW2],
   (c9_routing_invariants nidW [contactW1, contactW2]).2.1 1 (by omega)⟩

end STT
